import Mathlib

/-!
Shallow embedding of the EstimateAI cost-estimation core: the currency and
unit converter and country registry (`src/utils/localization.ts`), the
fallback estimator and the project-processing pipeline
(`src/services/aiProcessing.ts`).

JavaScript numbers are modelled as rationals (`ℚ`); `Math.round` is `round`
(round half towards positive infinity, as in JS); `Math.floor` is `Int.floor`.
Randomness (`Math.random()`) is modelled by explicit rational parameters in
`[0, 1)`; the random shuffle `sort(() => Math.random() - 0.5)` is modelled by
an arbitrary permutation of the catalog.  Database effects are modelled as
explicit state: the rows of `estimation_items`, the per-file
`processing_status` column and the project row's fields.
-/

namespace EstimateAI

/-- The 2-decimal rounding `Math.round(x * 100) / 100` used by the code. -/
def round2 (x : ℚ) : ℚ := (round (x * 100) : ℚ) / 100

/-- The 1-decimal rounding `Math.round(x * 10) / 10` applied to accuracy. -/
def round1 (x : ℚ) : ℚ := (round (x * 10) : ℚ) / 10

/-! ### Exchange rates and currency conversion (`localization.ts`) -/

/-- The `EXCHANGE_RATES` table: currency code to rate relative to USD. -/
def EXCHANGE_RATES : List (String × ℚ) :=
  [("USD", 1.00), ("EUR", 0.85), ("GBP", 0.73), ("JPY", 110.0),
   ("CAD", 1.25), ("AUD", 1.35), ("CHF", 0.92), ("CNY", 6.45),
   ("INR", 74.5), ("BRL", 5.2), ("MXN", 20.1), ("KRW", 1180.0),
   ("SGD", 1.35), ("NZD", 1.42), ("SEK", 8.6), ("NOK", 8.8),
   ("AED", 3.67), ("SAR", 3.75), ("ZAR", 14.8), ("ARS", 98.5),
   ("CLP", 800.0)]

/-- Property lookup `table[key]` on a JS object literal, as an association
list lookup. -/
def assocLookup {α : Type} (key : String) : List (String × α) → Option α
  | [] => none
  | p :: ps => if p.1 = key then some p.2 else assocLookup key ps

/-- The rate lookup `EXCHANGE_RATES[c] || 1` for `c`, where a missing entry (and,
per JS truthiness, a zero entry) falls back to `1`. -/
def jsRate (c : String) : ℚ :=
  match assocLookup c EXCHANGE_RATES with
  | some v => if v = 0 then 1 else v
  | none => 1

/-- The method `LocalizationService.convertCurrency`: identity when the codes are equal,
otherwise normalize to USD (`amount / rate[from]`) then scale to the target
(`* rate[to]`). -/
def convertCurrency (amount : ℚ) (fromCurrency toCurrency : String) : ℚ :=
  if fromCurrency = toCurrency then amount
  else
    let fromRate := jsRate fromCurrency
    let toRate := jsRate toCurrency
    (amount / fromRate) * toRate

/-! ### Unit conversion (`localization.ts`) -/

/-- The nested `conversions` table of `LocalizationService.convertUnits`. -/
def UNIT_CONVERSIONS : List (String × List (String × ℚ)) :=
  [("m²", [("sq ft", 10.764), ("sq m", 1)]),
   ("sq ft", [("m²", 0.0929), ("sq ft", 1)]),
   ("m³", [("cu ft", 35.314), ("cu m", 1)]),
   ("cu ft", [("m³", 0.0283), ("cu ft", 1)]),
   ("m", [("ft", 3.281), ("m", 1)]),
   ("ft", [("m", 0.305), ("ft", 1)]),
   ("kg", [("lbs", 2.205), ("kg", 1)]),
   ("lbs", [("kg", 0.454), ("lbs", 1)])]

/-- The method `LocalizationService.convertUnits`: identity on equal units, otherwise
`conversions[fromUnit]?.[toUnit]`, multiplying by the factor when it is
truthy and returning the value unchanged otherwise. -/
def convertUnits (value : ℚ) (fromUnit toUnit : String) : ℚ :=
  if fromUnit = toUnit then value
  else
    match assocLookup fromUnit UNIT_CONVERSIONS with
    | none => value
    | some row =>
      match assocLookup toUnit row with
      | none => value
      | some c => if c = 0 then value else value * c

/-- The bidirectional unit pairs the conversion table supports, as listed in
the spec (area, volume, length, weight). -/
def SUPPORTED_UNIT_PAIRS : List (String × String) :=
  [("m²", "sq ft"), ("sq ft", "m²"),
   ("m³", "cu ft"), ("cu ft", "m³"),
   ("m", "ft"), ("ft", "m"),
   ("kg", "lbs"), ("lbs", "kg")]

/-! ### Country registry and country detection (`localization.ts`) -/

inductive MeasurementSystem where
  | metric
  | imperial
deriving DecidableEq

structure ConstructionUnits where
  area : String
  volume : String
  length : String
  weight : String
deriving DecidableEq

structure CountryConfig where
  code : String
  name : String
  currency : String
  currencySymbol : String
  locale : String
  dateFormat : String
  numberFormat : String
  timezone : String
  measurementSystem : MeasurementSystem
  constructionUnits : ConstructionUnits
deriving DecidableEq

/-- The static `COUNTRIES` registry of `localization.ts`, in source order. -/
def COUNTRIES : List CountryConfig :=
  [⟨"US", "United States", "USD", "$", "en-US", "MM/DD/YYYY", "1,234.56",
    "America/New_York", .imperial, ⟨"sq ft", "cu ft", "ft", "lbs"⟩⟩,
   ⟨"CA", "Canada", "CAD", "C$", "en-CA", "DD/MM/YYYY", "1,234.56",
    "America/Toronto", .metric, ⟨"m²", "m³", "m", "kg"⟩⟩,
   ⟨"MX", "Mexico", "MXN", "$", "en-MX", "DD/MM/YYYY", "1,234.56",
    "America/Mexico_City", .metric, ⟨"m²", "m³", "m", "kg"⟩⟩,
   ⟨"GB", "United Kingdom", "GBP", "£", "en-GB", "DD/MM/YYYY", "1,234.56",
    "Europe/London", .metric, ⟨"m²", "m³", "m", "kg"⟩⟩,
   ⟨"DE", "Germany", "EUR", "€", "en-DE", "DD.MM.YYYY", "1.234,56",
    "Europe/Berlin", .metric, ⟨"m²", "m³", "m", "kg"⟩⟩,
   ⟨"FR", "France", "EUR", "€", "en-FR", "DD/MM/YYYY", "1 234,56",
    "Europe/Paris", .metric, ⟨"m²", "m³", "m", "kg"⟩⟩,
   ⟨"ES", "Spain", "EUR", "€", "en-ES", "DD/MM/YYYY", "1.234,56",
    "Europe/Madrid", .metric, ⟨"m²", "m³", "m", "kg"⟩⟩,
   ⟨"IT", "Italy", "EUR", "€", "en-IT", "DD/MM/YYYY", "1.234,56",
    "Europe/Rome", .metric, ⟨"m²", "m³", "m", "kg"⟩⟩,
   ⟨"NL", "Netherlands", "EUR", "€", "en-NL", "DD-MM-YYYY", "1.234,56",
    "Europe/Amsterdam", .metric, ⟨"m²", "m³", "m", "kg"⟩⟩,
   ⟨"CH", "Switzerland", "CHF", "CHF", "en-CH", "DD.MM.YYYY", "1\x27234.56",
    "Europe/Zurich", .metric, ⟨"m²", "m³", "m", "kg"⟩⟩,
   ⟨"SE", "Sweden", "SEK", "kr", "en-SE", "YYYY-MM-DD", "1 234,56",
    "Europe/Stockholm", .metric, ⟨"m²", "m³", "m", "kg"⟩⟩,
   ⟨"NO", "Norway", "NOK", "kr", "en-NO", "DD.MM.YYYY", "1 234,56",
    "Europe/Oslo", .metric, ⟨"m²", "m³", "m", "kg"⟩⟩,
   ⟨"JP", "Japan", "JPY", "¥", "en-JP", "YYYY/MM/DD", "1,234",
    "Asia/Tokyo", .metric, ⟨"m²", "m³", "m", "kg"⟩⟩,
   ⟨"CN", "China", "CNY", "¥", "en-CN", "YYYY/MM/DD", "1,234.56",
    "Asia/Shanghai", .metric, ⟨"m²", "m³", "m", "kg"⟩⟩,
   ⟨"IN", "India", "INR", "₹", "en-IN", "DD/MM/YYYY", "1,23,456.78",
    "Asia/Kolkata", .metric, ⟨"sq ft", "cu ft", "ft", "kg"⟩⟩,
   ⟨"AU", "Australia", "AUD", "A$", "en-AU", "DD/MM/YYYY", "1,234.56",
    "Australia/Sydney", .metric, ⟨"m²", "m³", "m", "kg"⟩⟩,
   ⟨"NZ", "New Zealand", "NZD", "NZ$", "en-NZ", "DD/MM/YYYY", "1,234.56",
    "Pacific/Auckland", .metric, ⟨"m²", "m³", "m", "kg"⟩⟩,
   ⟨"SG", "Singapore", "SGD", "S$", "en-SG", "DD/MM/YYYY", "1,234.56",
    "Asia/Singapore", .metric, ⟨"m²", "m³", "m", "kg"⟩⟩,
   ⟨"KR", "South Korea", "KRW", "₩", "en-KR", "YYYY.MM.DD", "1,234",
    "Asia/Seoul", .metric, ⟨"m²", "m³", "m", "kg"⟩⟩,
   ⟨"AE", "United Arab Emirates", "AED", "د.إ", "en-AE", "DD/MM/YYYY",
    "1,234.56", "Asia/Dubai", .metric, ⟨"m²", "m³", "m", "kg"⟩⟩,
   ⟨"SA", "Saudi Arabia", "SAR", "ر.س", "en-SA", "DD/MM/YYYY", "1,234.56",
    "Asia/Riyadh", .metric, ⟨"m²", "m³", "m", "kg"⟩⟩,
   ⟨"ZA", "South Africa", "ZAR", "R", "en-ZA", "YYYY/MM/DD", "1 234,56",
    "Africa/Johannesburg", .metric, ⟨"m²", "m³", "m", "kg"⟩⟩,
   ⟨"BR", "Brazil", "BRL", "R$", "en-BR", "DD/MM/YYYY", "1.234,56",
    "America/Sao_Paulo", .metric, ⟨"m²", "m³", "m", "kg"⟩⟩,
   ⟨"AR", "Argentina", "ARS", "$", "en-AR", "DD/MM/YYYY", "1.234,56",
    "America/Argentina/Buenos_Aires", .metric, ⟨"m²", "m³", "m", "kg"⟩⟩,
   ⟨"CL", "Chile", "CLP", "$", "en-CL", "DD-MM-YYYY", "1.234",
    "America/Santiago", .metric, ⟨"m²", "m³", "m", "kg"⟩⟩]

/-- The method `LocalizationService.detectUserCountry`, with the environment
(`navigator.language`, resolved timezone) passed explicitly.  An empty
`navigator.language` is falsy in JS, so `|| 'en-US'` applies.  The final
`COUNTRIES.find(c => c.code === 'US')!` is kept as an `Option`-valued find so
that totality is a theorem, not an assumption. -/
def detectUserCountry (navLanguage timeZone : String) : Option CountryConfig :=
  let userLocale := if navLanguage = "" then "en-US" else navLanguage
  match COUNTRIES.find? (fun c => c.locale = userLocale) with
  | some c => some c
  | none =>
    match COUNTRIES.find? (fun c => c.timezone = timeZone) with
    | some c => some c
    | none =>
      let langCode := (userLocale.splitOn "-").headD ""
      match COUNTRIES.find? (fun c => c.locale.startsWith langCode) with
      | some c => some c
      | none => COUNTRIES.find? (fun c => c.code = "US")

/-! ### Fallback estimator (`aiProcessing.ts`, `generateFallbackEstimation`) -/

structure CatalogItem where
  category : String
  description : String
  unit : String
  baseRate : ℚ
deriving DecidableEq

/-- The fixed 14-entry catalog inside `generateFallbackEstimation`. -/
def FALLBACK_CATALOG : List CatalogItem :=
  [⟨"Structural", "Concrete Foundation", "m³", 450⟩,
   ⟨"Structural", "Steel Framework", "tons", 2800⟩,
   ⟨"Structural", "Reinforcement Bars", "kg", 1.2⟩,
   ⟨"Civil", "Brick Work", "m²", 85⟩,
   ⟨"Civil", "Plastering", "m²", 25⟩,
   ⟨"Civil", "Flooring Tiles", "m²", 120⟩,
   ⟨"Electrical", "Wiring & Fixtures", "lot", 185000⟩,
   ⟨"Electrical", "Distribution Panel", "unit", 15000⟩,
   ⟨"Plumbing", "Piping & Fixtures", "lot", 145000⟩,
   ⟨"Plumbing", "Water Tank", "unit", 25000⟩,
   ⟨"Finishing", "Interior Painting", "m²", 35⟩,
   ⟨"Finishing", "Exterior Painting", "m²", 45⟩,
   ⟨"HVAC", "Air Conditioning", "unit", 85000⟩,
   ⟨"HVAC", "Ventilation System", "lot", 65000⟩]

/-- A line item as built by the pipeline and persisted to
`estimation_items`. -/
structure EstItem where
  category : String
  description : String
  quantity : ℚ
  unit : String
  rate : ℚ
  amount : ℚ
deriving DecidableEq

/-- The body of the `selectedItems.map` in `generateFallbackEstimation`:
`quantity = Math.floor(r1 * 200) + 10`, a raw rate jittered by
`baseRate * (0.8 + r2 * 0.4)`, `amount = quantity * rate` — with the raw,
pre-rounding rate — and both `rate` and `amount` rounded to 2 decimals on the
returned record. -/
def mkFallbackItem (item : CatalogItem) (r1 r2 : ℚ) : EstItem :=
  let quantity : ℚ := ((⌊r1 * 200⌋ : ℤ) : ℚ) + 10
  let rate := item.baseRate * (4/5 + r2 * (2/5))
  let amount := quantity * rate
  { category := item.category
    description := item.description
    quantity := quantity
    unit := item.unit
    rate := round2 rate
    amount := round2 amount }

/-- Maps the selected catalog entries to line items, threading the index so
each entry consumes its own pair of `Math.random()` draws. -/
def buildFallbackItems (rq rr : ℕ → ℚ) : ℕ → List CatalogItem → List EstItem
  | _, [] => []
  | i, c :: cs => mkFallbackItem c (rq i) (rr i) :: buildFallbackItems rq rr (i + 1) cs

/-- The function `generateFallbackEstimation`: shuffle the catalog (modelled by an
arbitrary permutation `perm` of it), keep the first
`8 + Math.floor(rCount * 5)` entries, and map each to a line item using the
per-index random draws `rq` (quantity) and `rr` (rate jitter). -/
def generateFallbackEstimation (perm : List CatalogItem) (rCount : ℚ)
    (rq rr : ℕ → ℚ) : List EstItem :=
  let selectedItems := perm.take (8 + (⌊rCount * 5⌋).toNat)
  buildFallbackItems rq rr 0 selectedItems

/-! ### Analysis results and aggregation (`aiProcessing.ts`) -/

structure IdentifiedItem where
  category : String
  description : String
  quantity : ℚ
  unit : String
  estimatedRate : ℚ
deriving DecidableEq

structure AnalysisResult where
  identifiedItems : List IdentifiedItem
  totalEstimatedCost : ℚ
  accuracy : ℚ
deriving DecidableEq

/-- The per-item mapping inside `allAnalysisResults.flatMap`: rate comes from
`estimatedRate` and `amount = quantity * estimatedRate` (unrounded). -/
def toEstItem (it : IdentifiedItem) : EstItem :=
  { category := it.category
    description := it.description
    quantity := it.quantity
    unit := it.unit
    rate := it.estimatedRate
    amount := it.quantity * it.estimatedRate }

/-- The flattening `allAnalysisResults.flatMap(result => result.identifiedItems.map(...))`. -/
def flattenResults : List AnalysisResult → List EstItem
  | [] => []
  | r :: rs => r.identifiedItems.map toEstItem ++ flattenResults rs

/-- The fold `estimationItems.reduce((sum, item) => sum + item.amount, 0)`. -/
def sumAmounts (items : List EstItem) : ℚ :=
  items.foldl (fun s it => s + it.amount) 0

/-- The running `averageAccuracy += result.accuracy` accumulation. -/
def sumAccuracies (rs : List AnalysisResult) : ℚ :=
  rs.foldl (fun s r => s + r.accuracy) 0

/-! ### The per-project pipeline (`processProjectFiles`) -/

/-- Project `status` column values reachable through the pipeline. -/
inductive ProjStatus where
  | draft
  | processing
  | completed
deriving DecidableEq

/-- Per-file `processing_status` column values. -/
inductive FileStatus where
  | pending
  | processing
  | completed
  | error
deriving DecidableEq

/-- The observable outcome of handling one `project_files` record inside the
loop of `processProjectFiles`:
* `throws` — some awaited call inside the `try` block throws, reaching the
  `catch` that marks the file `error`;
* `noData` — the storage download returns no data, so the file is skipped;
* `docError` — `documentProcessor.processFile` reports a validation /
  extraction failure via its `error` field (it catches internally and never
  throws);
* `analysisError` — `documentProcessor.analyzeWithAI` reports a failure via
  its `error` field, or returns no `analysisResult`;
* `ok r` — analysis succeeded with `AnalysisResult` `r`. -/
inductive FileOutcome where
  | throws
  | noData
  | docError
  | analysisError
  | ok (result : AnalysisResult)
deriving DecidableEq

/-- One iteration of the file loop: the final `processing_status` written for
the file, and the analysis result pushed onto `allAnalysisResults` (if any).
Every non-throwing path falls through to the update that marks the file
`completed`; only the `catch` marks it `error`.  When no real AI is
configured the download/analysis block is skipped entirely, so no result is
collected even for an `ok` file. -/
def processFile (useRealAI : Bool) : FileOutcome → FileStatus × Option AnalysisResult
  | .throws => (.error, none)
  | .ok r => (.completed, if useRealAI then some r else none)
  | _ => (.completed, none)

/-- The random draws `processProjectFiles` may consume: the catalog shuffle
(a permutation), the item-count draw, the per-item quantity and rate draws,
and the draw for the simulated `92 + Math.random() * 6` accuracy. -/
structure RandomSource where
  perm : List CatalogItem
  rCount : ℚ
  rq : ℕ → ℚ
  rr : ℕ → ℚ
  rAcc : ℚ

/-- The value returned by `processProjectFiles` on success. -/
structure ProcessingResult where
  totalCost : ℚ
  items : List EstItem
  accuracy : ℚ
deriving DecidableEq

/-- The persistent state `processProjectFiles` leaves behind, plus its return
value: the project `status` and `total_cost`, each file's
`processing_status`, the rows of `estimation_items` for this project (the
pipeline only ever `insert`s, so new rows are appended after `prevItems`),
and the returned `ProcessingResult` (`none` when the function threw). -/
structure PipelineResult where
  projectStatus : ProjStatus
  fileStatuses : List FileStatus
  itemsTable : List EstItem
  persistedTotalCost : Option ℚ
  returned : Option ProcessingResult

/-- The `allAnalysisResults` accumulation of the file loop: each file's
pushed analysis result, in file order. -/
def collectResults (useRealAI : Bool) : List FileOutcome → List AnalysisResult
  | [] => []
  | f :: fs =>
    match (processFile useRealAI f).2 with
    | some r => r :: collectResults useRealAI fs
    | none => collectResults useRealAI fs

/-- The aggregation step of `processProjectFiles` (lines 109–139): given the
collected analysis results and the fallback output, produce
`(estimationItems, totalEstimatedCost, averageAccuracy)`.  With real AI
results, the flattened identified items are used and the total is recomputed
as the `reduce` of their amounts, substituting the fallback wholesale when
the flattened list is empty; with no real results the fallback is used with
simulated accuracy `92 + rAcc * 6`. -/
def aggregate (useRealAI : Bool) (allAnalysisResults : List AnalysisResult)
    (fallbackItems : List EstItem) (rAcc : ℚ) : List EstItem × ℚ × ℚ :=
  if useRealAI = true ∧ allAnalysisResults ≠ [] then
    let estimationItems := flattenResults allAnalysisResults
    if estimationItems = [] then
      (fallbackItems, sumAmounts fallbackItems, (85 : ℚ))
    else
      (estimationItems, sumAmounts estimationItems,
       sumAccuracies allAnalysisResults / (allAnalysisResults.length : ℚ))
  else
    (fallbackItems, sumAmounts fallbackItems, 92 + rAcc * 6)

/-- The function `processProjectFiles`.  With no files it throws (`catch` reverts the
project to `draft`).  Otherwise each file is processed in order, its final
`processing_status` recorded and its analysis result (if any) collected; the
results are aggregated by `aggregate`; the estimation items are inserted into
`estimation_items` (appended — the code never deletes previous rows) and the
project row is updated to `completed` with the recomputed total. -/
def processProjectFiles (useRealAI : Bool) (files : List FileOutcome)
    (rnd : RandomSource) (prevItems : List EstItem) : PipelineResult :=
  if files = [] then
    { projectStatus := .draft
      fileStatuses := []
      itemsTable := prevItems
      persistedTotalCost := none
      returned := none }
  else
    let statuses := (files.map (processFile useRealAI)).map Prod.fst
    let allAnalysisResults := collectResults useRealAI files
    let fallbackItems := generateFallbackEstimation rnd.perm rnd.rCount rnd.rq rnd.rr
    let agg := aggregate useRealAI allAnalysisResults fallbackItems rnd.rAcc
    { projectStatus := .completed
      fileStatuses := statuses
      itemsTable := prevItems ++ agg.1
      persistedTotalCost := some agg.2.1
      returned := some { totalCost := agg.2.1, items := agg.1, accuracy := round1 agg.2.2 } }

/-- Replaces the self-reported `totalEstimatedCost` of a successful file's
analysis result, leaving everything else unchanged.  Used to state that the
pipeline's output never depends on the providers' self-reported totals. -/
def retotal (g : ℚ → ℚ) : FileOutcome → FileOutcome
  | .ok r => .ok { r with totalEstimatedCost := g r.totalEstimatedCost }
  | f => f

end EstimateAI

namespace EstimateAI

/-! ### Helper lemmas -/

/-- The `|| 1` fallback means an exchange rate used for conversion is never
zero: present nonzero rates are used as-is, and both a missing entry and a
(hypothetical) zero entry fall back to `1`. -/
theorem jsRate_ne_zero (c : String) : jsRate c ≠ 0 := by
  unfold jsRate
  cases h : assocLookup c EXCHANGE_RATES with
  | none => norm_num
  | some v =>
    by_cases hv : v = 0 <;> simp [hv]

/-- CLAIM C5: `convertCurrency(x, A, A) = x` exactly, for every amount `x`
and every currency code `A`, including codes absent from the rate table: the
`from == to` test short-circuits before any rate arithmetic. -/
theorem convertCurrency_identity (x : ℚ) (A : String) :
    convertCurrency x A A = x := by
  simp [convertCurrency]

/-- CLAIM C4: for currencies `A` and `B` present in the exchange-rate table,
converting `x` from `A` to `B` and back returns exactly `x` (the
normalize-to-USD-then-scale algorithm round-trips; in the rational model the
round trip is exact, hence within any floating-point tolerance). -/
theorem convertCurrency_roundtrip (x : ℚ) (A B : String)
    (hA : (assocLookup A EXCHANGE_RATES).isSome = true)
    (hB : (assocLookup B EXCHANGE_RATES).isSome = true) :
    convertCurrency (convertCurrency x A B) B A = x := by
  by_cases hab : A = B
  · subst hab; simp [convertCurrency]
  · have ha := jsRate_ne_zero A
    have hb := jsRate_ne_zero B
    simp only [convertCurrency, if_neg hab, if_neg (Ne.symm hab)]
    field_simp
    ring

/-- Witness for C4 at `A = "EUR"`, `B = "JPY"`, `x = 7`. -/
theorem convertCurrency_roundtrip_witness :
    convertCurrency (convertCurrency 7 "EUR" "JPY") "JPY" "EUR" = 7 :=
  convertCurrency_roundtrip 7 "EUR" "JPY" (by decide) (by decide)

/-- CLAIM C10: for every pair of distinct codes with at least one absent
from the rate table, conversion does not fail: it always computes
`(x / rate[from]) * rate[to]` with rate `1` (the USD rate) substituted for
each missing code.  Hence a missing `from` code behaves exactly like USD, a
missing `to` code leaves the USD-normalized amount unscaled, and with both
codes missing the amount passes through unchanged. -/
theorem convertCurrency_unknown_code (x : ℚ) (A B : String) (hAB : A ≠ B)
    (h : assocLookup A EXCHANGE_RATES = none ∨ assocLookup B EXCHANGE_RATES = none) :
    convertCurrency x A B = (x / jsRate A) * jsRate B ∧
    (assocLookup A EXCHANGE_RATES = none → jsRate A = 1 ∧
      convertCurrency x A B = convertCurrency x "USD" B) ∧
    (assocLookup B EXCHANGE_RATES = none → jsRate B = 1 ∧
      convertCurrency x A B = x / jsRate A) ∧
    (assocLookup A EXCHANGE_RATES = none → assocLookup B EXCHANGE_RATES = none →
      convertCurrency x A B = x) := by
  have hUSD : jsRate "USD" = 1 := by
    simp only [jsRate, EXCHANGE_RATES, assocLookup]
    norm_num
  refine ⟨?_, fun hA => ?_, fun hB => ?_, fun hA hB => ?_⟩
  · simp [convertCurrency, if_neg hAB]
  · have hA1 : jsRate A = 1 := by unfold jsRate; rw [hA]
    refine ⟨hA1, ?_⟩
    by_cases hUB : "USD" = B
    · subst hUB
      simp [convertCurrency, if_neg hAB, hA1, hUSD]
    · simp [convertCurrency, if_neg hAB, if_neg hUB, hA1, hUSD]
  · have hB1 : jsRate B = 1 := by unfold jsRate; rw [hB]
    exact ⟨hB1, by simp [convertCurrency, if_neg hAB, hB1]⟩
  · have hA1 : jsRate A = 1 := by unfold jsRate; rw [hA]
    have hB1 : jsRate B = 1 := by unfold jsRate; rw [hB]
    simp [convertCurrency, if_neg hAB, hA1, hB1]

/-- Witness for C10 at `x = 200`, `A = "EUR"` (present), `B = "XYZ"`
(absent): only the target code is missing. -/
theorem convertCurrency_unknown_code_witness :
    convertCurrency 200 "EUR" "XYZ" = (200 / jsRate "EUR") * jsRate "XYZ" ∧
    (assocLookup "EUR" EXCHANGE_RATES = none → jsRate "EUR" = 1 ∧
      convertCurrency 200 "EUR" "XYZ" = convertCurrency 200 "USD" "XYZ") ∧
    (assocLookup "XYZ" EXCHANGE_RATES = none → jsRate "XYZ" = 1 ∧
      convertCurrency 200 "EUR" "XYZ" = 200 / jsRate "EUR") ∧
    (assocLookup "EUR" EXCHANGE_RATES = none →
      assocLookup "XYZ" EXCHANGE_RATES = none →
      convertCurrency 200 "EUR" "XYZ" = 200) :=
  convertCurrency_unknown_code 200 "EUR" "XYZ" (by decide) (Or.inr (by decide))

/-- If a composite conversion factor is within 1% of `1`, scaling by it
moves any value by at most 1% of that value's magnitude. -/
theorem roundtrip_factor_bound (v c₁ c₂ : ℚ) (h : |c₁ * c₂ - 1| ≤ 1 / 100) :
    |v * c₁ * c₂ - v| ≤ |v| / 100 := by
  have hrw : v * c₁ * c₂ - v = v * (c₁ * c₂ - 1) := by ring
  rw [hrw, abs_mul]
  calc |v| * |c₁ * c₂ - 1| ≤ |v| * (1 / 100) :=
        mul_le_mul_of_nonneg_left h (abs_nonneg v)
    _ = |v| / 100 := by ring

/-- Evaluation of `convertUnits` in the area direction m² → sq ft. -/
theorem convertUnits_m2_to_sqft (w : ℚ) :
    convertUnits w "m²" "sq ft" = w * (2691 / 250) := by
  simp [convertUnits, UNIT_CONVERSIONS, assocLookup]
  norm_num

/-- Evaluation of `convertUnits` in the area direction sq ft → m². -/
theorem convertUnits_sqft_to_m2 (w : ℚ) :
    convertUnits w "sq ft" "m²" = w * (929 / 10000) := by
  simp [convertUnits, UNIT_CONVERSIONS, assocLookup]
  norm_num

/-- Evaluation of `convertUnits` in the volume direction m³ → cu ft. -/
theorem convertUnits_m3_to_cuft (w : ℚ) :
    convertUnits w "m³" "cu ft" = w * (17657 / 500) := by
  simp [convertUnits, UNIT_CONVERSIONS, assocLookup]
  norm_num

/-- Evaluation of `convertUnits` in the volume direction cu ft → m³. -/
theorem convertUnits_cuft_to_m3 (w : ℚ) :
    convertUnits w "cu ft" "m³" = w * (283 / 10000) := by
  simp [convertUnits, UNIT_CONVERSIONS, assocLookup]
  norm_num

/-- Evaluation of `convertUnits` in the length direction m → ft. -/
theorem convertUnits_m_to_ft (w : ℚ) :
    convertUnits w "m" "ft" = w * (3281 / 1000) := by
  simp [convertUnits, UNIT_CONVERSIONS, assocLookup]
  norm_num

/-- Evaluation of `convertUnits` in the length direction ft → m. -/
theorem convertUnits_ft_to_m (w : ℚ) :
    convertUnits w "ft" "m" = w * (61 / 200) := by
  simp [convertUnits, UNIT_CONVERSIONS, assocLookup]
  norm_num

/-- Evaluation of `convertUnits` in the weight direction kg → lbs. -/
theorem convertUnits_kg_to_lbs (w : ℚ) :
    convertUnits w "kg" "lbs" = w * (441 / 200) := by
  simp [convertUnits, UNIT_CONVERSIONS, assocLookup]
  norm_num

/-- Evaluation of `convertUnits` in the weight direction lbs → kg. -/
theorem convertUnits_lbs_to_kg (w : ℚ) :
    convertUnits w "lbs" "kg" = w * (227 / 500) := by
  simp [convertUnits, UNIT_CONVERSIONS, assocLookup]
  norm_num

/-- CLAIM C6: for every supported unit pair in the conversion table (area
m²/sq ft, volume m³/cu ft, length m/ft, weight kg/lbs, in either direction)
and every value `v`, converting forward and then backward lands within 1% of
`v`. -/
theorem convertUnits_roundtrip (U V : String) (v : ℚ)
    (h : (U, V) ∈ SUPPORTED_UNIT_PAIRS) :
    |convertUnits (convertUnits v U V) V U - v| ≤ |v| / 100 := by
  simp only [SUPPORTED_UNIT_PAIRS, List.mem_cons, List.not_mem_nil, or_false,
    Prod.mk.injEq] at h
  obtain ⟨rfl, rfl⟩ | ⟨rfl, rfl⟩ | ⟨rfl, rfl⟩ | ⟨rfl, rfl⟩ |
    ⟨rfl, rfl⟩ | ⟨rfl, rfl⟩ | ⟨rfl, rfl⟩ | ⟨rfl, rfl⟩ := h
  · rw [convertUnits_m2_to_sqft v, convertUnits_sqft_to_m2 _]
    exact roundtrip_factor_bound v _ _ (by norm_num [abs_le])
  · rw [convertUnits_sqft_to_m2 v, convertUnits_m2_to_sqft _]
    exact roundtrip_factor_bound v _ _ (by norm_num [abs_le])
  · rw [convertUnits_m3_to_cuft v, convertUnits_cuft_to_m3 _]
    exact roundtrip_factor_bound v _ _ (by norm_num [abs_le])
  · rw [convertUnits_cuft_to_m3 v, convertUnits_m3_to_cuft _]
    exact roundtrip_factor_bound v _ _ (by norm_num [abs_le])
  · rw [convertUnits_m_to_ft v, convertUnits_ft_to_m _]
    exact roundtrip_factor_bound v _ _ (by norm_num [abs_le])
  · rw [convertUnits_ft_to_m v, convertUnits_m_to_ft _]
    exact roundtrip_factor_bound v _ _ (by norm_num [abs_le])
  · rw [convertUnits_kg_to_lbs v, convertUnits_lbs_to_kg _]
    exact roundtrip_factor_bound v _ _ (by norm_num [abs_le])
  · rw [convertUnits_lbs_to_kg v, convertUnits_kg_to_lbs _]
    exact roundtrip_factor_bound v _ _ (by norm_num [abs_le])

/-- Witness for C6 at the area pair and `v = 7`. -/
theorem convertUnits_roundtrip_witness :
    |convertUnits (convertUnits 7 "m²" "sq ft") "sq ft" "m²" - 7| ≤ |(7 : ℚ)| / 100 :=
  convertUnits_roundtrip "m²" "sq ft" 7 (by decide)

/-- CLAIM C7: country resolution is total.  For every `navigator.language`
and timezone value — including combinations matching no registered country —
`detectUserCountry` returns a profile from the registry (never
undefined/null), and when the exact-locale, exact-timezone and
language-prefix lookups all fail it falls back to the base country, US. -/
theorem detectUserCountry_total (nl tz : String) :
    ∃ c, detectUserCountry nl tz = some c ∧ c ∈ COUNTRIES ∧
      ((COUNTRIES.find? (fun d => d.locale = (if nl = "" then "en-US" else nl)) = none ∧
        COUNTRIES.find? (fun d => d.timezone = tz) = none ∧
        COUNTRIES.find? (fun d =>
          d.locale.startsWith (((if nl = "" then "en-US" else nl).splitOn "-").headD "")) = none) →
        c.code = "US") := by
  simp only [detectUserCountry]
  cases h1 : COUNTRIES.find? (fun d => d.locale = (if nl = "" then "en-US" else nl)) with
  | some c =>
    exact ⟨c, by simp, List.mem_of_find?_eq_some h1, fun hall => absurd hall.1 (by simp)⟩
  | none =>
    cases h2 : COUNTRIES.find? (fun d => d.timezone = tz) with
    | some c =>
      exact ⟨c, by simp, List.mem_of_find?_eq_some h2, fun hall => absurd hall.2.1 (by simp)⟩
    | none =>
      cases h3 : COUNTRIES.find? (fun d =>
          d.locale.startsWith (((if nl = "" then "en-US" else nl).splitOn "-").headD "")) with
      | some c =>
        exact ⟨c, by simp, List.mem_of_find?_eq_some h3, fun hall => absurd hall.2.2 (by simp)⟩
      | none =>
        cases h4 : COUNTRIES.find? (fun d => d.code = "US") with
        | some c =>
          refine ⟨c, by simp, List.mem_of_find?_eq_some h4, fun _ => ?_⟩
          have := List.find?_some h4
          simpa using this
        | none => exact absurd h4 (by decide)

/-- Witness for C7 at an unrecognized locale and timezone. -/
theorem detectUserCountry_total_witness :
    ∃ c, detectUserCountry "zz-QQ" "Nowhere/Town" = some c ∧ c ∈ COUNTRIES ∧
      ((COUNTRIES.find? (fun d => d.locale = (if "zz-QQ" = "" then "en-US" else "zz-QQ")) = none ∧
        COUNTRIES.find? (fun d => d.timezone = "Nowhere/Town") = none ∧
        COUNTRIES.find? (fun d =>
          d.locale.startsWith (((if ("zz-QQ" : String) = "" then "en-US" else "zz-QQ").splitOn "-").headD "")) = none) →
        c.code = "US") :=
  detectUserCountry_total "zz-QQ" "Nowhere/Town"

/-- The map `buildFallbackItems` produces one line item per selected catalog
entry. -/
theorem buildFallbackItems_length (rq rr : ℕ → ℚ) :
    ∀ (i : ℕ) (l : List CatalogItem),
      (buildFallbackItems rq rr i l).length = l.length := by
  intro i l
  induction l generalizing i with
  | nil => rfl
  | cons c cs ih => simp [buildFallbackItems, ih]

/-- Every item built by `buildFallbackItems` is `mkFallbackItem` of some
selected catalog entry and some pair of random draws. -/
theorem buildFallbackItems_mem (rq rr : ℕ → ℚ) :
    ∀ (i : ℕ) (l : List CatalogItem) (it : EstItem),
      it ∈ buildFallbackItems rq rr i l →
      ∃ j c, c ∈ l ∧ it = mkFallbackItem c (rq j) (rr j) := by
  intro i l
  induction l generalizing i with
  | nil => intro it h; simp [buildFallbackItems] at h
  | cons c cs ih =>
    intro it h
    rw [buildFallbackItems, List.mem_cons] at h
    rcases h with h | h
    · exact ⟨i, c, List.mem_cons_self c cs, h⟩
    · obtain ⟨j, d, hd, he⟩ := ih (i + 1) it h
      exact ⟨j, d, List.mem_cons_of_mem c hd, he⟩

/-- Every base rate in the fallback catalog is at least `1.2` (the smallest,
for reinforcement bars). -/
theorem catalog_baseRate_lb (c : CatalogItem) (hc : c ∈ FALLBACK_CATALOG) :
    (6 / 5 : ℚ) ≤ c.baseRate := by
  simp only [FALLBACK_CATALOG, List.mem_cons, List.not_mem_nil, or_false] at hc
  rcases hc with rfl | rfl | rfl | rfl | rfl | rfl | rfl | rfl | rfl | rfl |
    rfl | rfl | rfl | rfl <;> norm_num

/-- Rounding with `round2` keeps values that are at least `0.96` at least `0.96`:
rounding to two
decimals moves a value by less than `0.01`. -/
theorem round2_ge (x : ℚ) (h : (96 / 100 : ℚ) ≤ x) :
    (96 / 100 : ℚ) ≤ round2 x := by
  have h1 : (96 : ℚ) ≤ x * 100 := by linarith
  have h2 : (96 : ℤ) ≤ ⌊x * 100⌋ := Int.le_floor.mpr (by exact_mod_cast h1)
  have h3 : ⌊x * 100⌋ ≤ round (x * 100) := by
    rw [round_eq]
    exact Int.floor_le_floor (by linarith)
  have h4 : (96 : ℚ) ≤ (round (x * 100) : ℚ) := by exact_mod_cast le_trans h2 h3
  rw [round2]
  linarith

/-- Rounding with `round2` always yields an integer number of hundredths. -/
theorem round2_is_centi (x : ℚ) : ∃ n : ℤ, round2 x = (n : ℚ) / 100 :=
  ⟨round (x * 100), rfl⟩

/-- The `reduce((sum, item) => sum + item.amount, s)` fold equals `s` plus
the sum of the amounts. -/
theorem foldl_add_amount (l : List EstItem) (s : ℚ) :
    l.foldl (fun a it => a + it.amount) s = s + (l.map EstItem.amount).sum := by
  induction l generalizing s with
  | nil => simp
  | cons it l ih => simp [ih]; ring

/-- The fold `sumAmounts` is the sum of the items' amounts. -/
theorem sumAmounts_eq_sum (l : List EstItem) :
    sumAmounts l = (l.map EstItem.amount).sum := by
  rw [sumAmounts, foldl_add_amount, zero_add]

/-- CLAIM C2: for every random draw (count draw and per-item draws in
`[0, 1)`, any shuffle of the catalog), the fallback estimator returns a
non-empty list of between 8 and 12 items in which every quantity and every
rate is strictly positive, every amount is an exact number of hundredths
(2 decimal places), and the `total_cost` the pipeline computes from its
output (the `reduce` of amounts) is the sum of the items' amounts. -/
theorem generateFallbackEstimation_sound (perm : List CatalogItem)
    (rCount : ℚ) (rq rr : ℕ → ℚ) (hperm : perm.Perm FALLBACK_CATALOG)
    (hc0 : 0 ≤ rCount) (hc1 : rCount < 1)
    (hq0 : ∀ i, 0 ≤ rq i) (hq1 : ∀ i, rq i < 1)
    (hr0 : ∀ i, 0 ≤ rr i) (hr1 : ∀ i, rr i < 1) :
    generateFallbackEstimation perm rCount rq rr ≠ [] ∧
    8 ≤ (generateFallbackEstimation perm rCount rq rr).length ∧
    (generateFallbackEstimation perm rCount rq rr).length ≤ 12 ∧
    (∀ it ∈ generateFallbackEstimation perm rCount rq rr,
      0 < it.quantity ∧ 0 < it.rate ∧ ∃ n : ℤ, it.amount = (n : ℚ) / 100) ∧
    sumAmounts (generateFallbackEstimation perm rCount rq rr) =
      ((generateFallbackEstimation perm rCount rq rr).map EstItem.amount).sum := by
  have hlen14 : perm.length = 14 := hperm.length_eq
  have hfl5 : ⌊rCount * 5⌋ < 5 := Int.floor_lt.mpr (by push_cast; linarith)
  have hfl0 : (0 : ℤ) ≤ ⌊rCount * 5⌋ :=
    Int.floor_nonneg.mpr (by positivity)
  have htn : (⌊rCount * 5⌋).toNat ≤ 4 := Int.toNat_le.mpr (by omega)
  have hlen : (generateFallbackEstimation perm rCount rq rr).length =
      8 + (⌊rCount * 5⌋).toNat := by
    rw [generateFallbackEstimation, buildFallbackItems_length,
      List.length_take, hlen14]
    omega
  refine ⟨?_, by omega, by omega, ?_, sumAmounts_eq_sum _⟩
  · intro hnil
    rw [hnil] at hlen
    simp only [List.length_nil] at hlen
    omega
  · intro it hit
    obtain ⟨j, c, hcsel, rfl⟩ :=
      buildFallbackItems_mem rq rr 0 _ it hit
    have hcat : c ∈ FALLBACK_CATALOG :=
      hperm.mem_iff.mp (List.take_subset _ _ hcsel)
    have hbase : (6 / 5 : ℚ) ≤ c.baseRate := catalog_baseRate_lb c hcat
    refine ⟨?_, ?_, round2_is_centi _⟩
    · show (0 : ℚ) < ((⌊rq j * 200⌋ : ℤ) : ℚ) + 10
      have h0 : (0 : ℤ) ≤ ⌊rq j * 200⌋ :=
        Int.floor_nonneg.mpr (mul_nonneg (hq0 j) (by norm_num))
      have h0q : (0 : ℚ) ≤ ((⌊rq j * 200⌋ : ℤ) : ℚ) := by exact_mod_cast h0
      linarith
    · show (0 : ℚ) < round2 (c.baseRate * (4 / 5 + rr j * (2 / 5)))
      have hjit : (4 / 5 : ℚ) ≤ 4 / 5 + rr j * (2 / 5) := by
        have := mul_nonneg (hr0 j) (by norm_num : (0 : ℚ) ≤ 2 / 5)
        linarith
      have hraw : (96 / 100 : ℚ) ≤ c.baseRate * (4 / 5 + rr j * (2 / 5)) := by
        calc (96 / 100 : ℚ) = (6 / 5) * (4 / 5) := by norm_num
          _ ≤ c.baseRate * (4 / 5) :=
            mul_le_mul_of_nonneg_right hbase (by norm_num)
          _ ≤ c.baseRate * (4 / 5 + rr j * (2 / 5)) :=
            mul_le_mul_of_nonneg_left hjit (by linarith)
      exact lt_of_lt_of_le (by norm_num) (round2_ge _ hraw)

/-- Witness for C2: the identity shuffle with all draws `0`. -/
theorem generateFallbackEstimation_sound_witness :
    generateFallbackEstimation FALLBACK_CATALOG 0 (fun _ => 0) (fun _ => 0) ≠ [] ∧
    8 ≤ (generateFallbackEstimation FALLBACK_CATALOG 0 (fun _ => 0) (fun _ => 0)).length ∧
    (generateFallbackEstimation FALLBACK_CATALOG 0 (fun _ => 0) (fun _ => 0)).length ≤ 12 ∧
    (∀ it ∈ generateFallbackEstimation FALLBACK_CATALOG 0 (fun _ => 0) (fun _ => 0),
      0 < it.quantity ∧ 0 < it.rate ∧ ∃ n : ℤ, it.amount = (n : ℚ) / 100) ∧
    sumAmounts (generateFallbackEstimation FALLBACK_CATALOG 0 (fun _ => 0) (fun _ => 0)) =
      ((generateFallbackEstimation FALLBACK_CATALOG 0 (fun _ => 0) (fun _ => 0)).map EstItem.amount).sum :=
  generateFallbackEstimation_sound FALLBACK_CATALOG 0 (fun _ => 0) (fun _ => 0)
    (List.Perm.refl _) le_rfl (by norm_num)
    (fun _ => le_rfl) (fun _ => by norm_num)
    (fun _ => le_rfl) (fun _ => by norm_num)

/-- Conversely, every selected catalog entry yields an item in the built
list (at some random-stream index). -/
theorem buildFallbackItems_mem_of (rq rr : ℕ → ℚ) :
    ∀ (i : ℕ) (l : List CatalogItem) (c : CatalogItem), c ∈ l →
      ∃ j, mkFallbackItem c (rq j) (rr j) ∈ buildFallbackItems rq rr i l := by
  intro i l
  induction l generalizing i with
  | nil => intro c hc; simp at hc
  | cons d ds ih =>
    intro c hc
    rw [List.mem_cons] at hc
    rcases hc with rfl | hc
    · exact ⟨i, List.mem_cons_self _ _⟩
    · obtain ⟨j, hj⟩ := ih (i + 1) c hc
      exact ⟨j, List.mem_cons_of_mem _ hj⟩

/-- The first eight catalog entries, as selected when the count draw is 0 and
the shuffle leaves the catalog in source order. -/
theorem fallbackCatalog_take8 : FALLBACK_CATALOG.take 8 =
    [⟨"Structural", "Concrete Foundation", "m³", 450⟩,
     ⟨"Structural", "Steel Framework", "tons", 2800⟩,
     ⟨"Structural", "Reinforcement Bars", "kg", 1.2⟩,
     ⟨"Civil", "Brick Work", "m²", 85⟩,
     ⟨"Civil", "Plastering", "m²", 25⟩,
     ⟨"Civil", "Flooring Tiles", "m²", 120⟩,
     ⟨"Electrical", "Wiring & Fixtures", "lot", 185000⟩,
     ⟨"Electrical", "Distribution Panel", "unit", 15000⟩] := rfl

/-- COUNTEREXAMPLE to CLAIM C3: with the identity shuffle, count draw 0,
quantity draws 0 and rate draws 1/10, the fallback estimator produces the
reinforcement-bars item with `quantity = 10`, carried
`rate = round2(1.008) = 1.01` and `amount = round2(10 × 1.008) = 10.08`,
whereas `round2(quantity × rate) = round2(10.1) = 10.1`: the amount is
computed from the pre-rounding jittered rate, not from the rate carried on
the returned item. -/
theorem fallbackItem_amount_counterexample :
    ∃ it ∈ generateFallbackEstimation FALLBACK_CATALOG 0
      (fun _ => 0) (fun _ => (1 : ℚ) / 10),
      it.amount ≠ round2 (it.quantity * it.rate) := by
  have h0 : (⌊(0 : ℚ) * 5⌋).toNat = 0 := by norm_num
  have hsel : generateFallbackEstimation FALLBACK_CATALOG 0
      (fun _ => 0) (fun _ => (1 : ℚ) / 10) =
      buildFallbackItems (fun _ => 0) (fun _ => (1 : ℚ) / 10) 0
        (FALLBACK_CATALOG.take 8) := by
    rw [generateFallbackEstimation, h0]
  have hbars : (⟨"Structural", "Reinforcement Bars", "kg", 1.2⟩ : CatalogItem) ∈
      FALLBACK_CATALOG.take 8 := by
    rw [fallbackCatalog_take8]
    exact List.mem_cons_of_mem _ (List.mem_cons_of_mem _ (List.mem_cons_self _ _))
  obtain ⟨j, hj⟩ := buildFallbackItems_mem_of (fun _ => 0) (fun _ => (1 : ℚ) / 10)
    0 _ _ hbars
  refine ⟨mkFallbackItem ⟨"Structural", "Reinforcement Bars", "kg", 1.2⟩ 0 ((1 : ℚ) / 10),
    by rw [hsel]; exact hj, ?_⟩
  show round2 ((((⌊(0 : ℚ) * 200⌋ : ℤ) : ℚ) + 10) *
      ((1.2 : ℚ) * (4 / 5 + (1 / 10) * (2 / 5)))) ≠
    round2 ((((⌊(0 : ℚ) * 200⌋ : ℤ) : ℚ) + 10) *
      round2 ((1.2 : ℚ) * (4 / 5 + (1 / 10) * (2 / 5))))
  norm_num [round2, round_eq]

/-- CLAIM C3 (amended): every item the fallback estimator produces is
`mkFallbackItem` of a catalog entry and a pair of draws, its carried rate is
`round2` of the jittered raw rate `baseRate * (0.8 + draw * 0.4)`, and its
amount equals `round2(quantity × raw rate)` — the raw, pre-rounding rate,
which can differ in the third decimal from the carried rate, so the amount
need not equal `round2(quantity × carried rate)`. -/
theorem fallbackItem_amount_amended (perm : List CatalogItem) (rCount : ℚ)
    (rq rr : ℕ → ℚ) (it : EstItem)
    (hit : it ∈ generateFallbackEstimation perm rCount rq rr) :
    ∃ j c, c ∈ perm ∧ it = mkFallbackItem c (rq j) (rr j) ∧
      it.rate = round2 (c.baseRate * (4 / 5 + rr j * (2 / 5))) ∧
      it.amount = round2 (it.quantity * (c.baseRate * (4 / 5 + rr j * (2 / 5)))) := by
  obtain ⟨j, c, hcsel, rfl⟩ := buildFallbackItems_mem rq rr 0 _ it hit
  exact ⟨j, c, List.take_subset _ _ hcsel, rfl, rfl, rfl⟩

/-- Witness for the amended C3 at the identity shuffle with all draws 0,
instantiated at the concrete-foundation item. -/
theorem fallbackItem_amount_amended_witness :
    ∃ (j : ℕ) (c : CatalogItem), c ∈ FALLBACK_CATALOG ∧
      mkFallbackItem ⟨"Structural", "Concrete Foundation", "m³", 450⟩ 0 0 =
        mkFallbackItem c 0 0 ∧
      (mkFallbackItem ⟨"Structural", "Concrete Foundation", "m³", 450⟩ 0 0).rate =
        round2 (c.baseRate * (4 / 5 + 0 * (2 / 5))) ∧
      (mkFallbackItem ⟨"Structural", "Concrete Foundation", "m³", 450⟩ 0 0).amount =
        round2 ((mkFallbackItem ⟨"Structural", "Concrete Foundation", "m³", 450⟩ 0 0).quantity *
          (c.baseRate * (4 / 5 + 0 * (2 / 5)))) := by
  have h0 : (⌊(0 : ℚ) * 5⌋).toNat = 0 := by norm_num
  have hsel : generateFallbackEstimation FALLBACK_CATALOG 0
      (fun _ => (0 : ℚ)) (fun _ => (0 : ℚ)) =
      buildFallbackItems (fun _ => (0 : ℚ)) (fun _ => (0 : ℚ)) 0
        (FALLBACK_CATALOG.take 8) := by
    rw [generateFallbackEstimation, h0]
  have hmem : mkFallbackItem ⟨"Structural", "Concrete Foundation", "m³", 450⟩ 0 0 ∈
      generateFallbackEstimation FALLBACK_CATALOG 0 (fun _ => (0 : ℚ)) (fun _ => (0 : ℚ)) := by
    rw [hsel, fallbackCatalog_take8]
    exact List.mem_cons_self _ _
  exact fallbackItem_amount_amended FALLBACK_CATALOG 0
    (fun _ => (0 : ℚ)) (fun _ => (0 : ℚ)) _ hmem

/-- The list `collectResults` is the `filterMap` of the per-file outcomes. -/
theorem collectResults_eq_filterMap (u : Bool) (files : List FileOutcome) :
    collectResults u files = (files.map (processFile u)).filterMap Prod.snd := by
  induction files with
  | nil => rfl
  | cons f fs ih =>
    rw [List.map_cons, List.filterMap_cons, collectResults]
    cases h : (processFile u f).2 with
    | none => simp [ih]
    | some r => simp [ih]

/-- Updating the self-reported total commutes with one loop iteration: the
file status is unchanged and the collected result (if any) just carries the
updated total. -/
theorem processFile_retotal (g : ℚ → ℚ) (f : FileOutcome) :
    processFile true (retotal g f) =
      ((processFile true f).1,
        ((processFile true f).2).map
          (fun r => { r with totalEstimatedCost := g r.totalEstimatedCost })) := by
  cases f <;> rfl

/-- Updating self-reported totals commutes with collecting results. -/
theorem collectResults_retotal (g : ℚ → ℚ) (files : List FileOutcome) :
    collectResults true (files.map (retotal g)) =
      (collectResults true files).map
        (fun r => { r with totalEstimatedCost := g r.totalEstimatedCost }) := by
  induction files with
  | nil => rfl
  | cons f fs ih =>
    rw [List.map_cons, collectResults, collectResults, processFile_retotal]
    cases h : (processFile true f).2 with
    | none => simp [ih]
    | some r => simp [ih]

/-- Flattening ignores the self-reported totals. -/
theorem flattenResults_retotal (g : ℚ → ℚ) (rs : List AnalysisResult) :
    flattenResults (rs.map
      (fun r => { r with totalEstimatedCost := g r.totalEstimatedCost })) =
      flattenResults rs := by
  induction rs with
  | nil => rfl
  | cons r rs ih => rw [List.map_cons, flattenResults, flattenResults, ih]

/-- The accuracy accumulation ignores the self-reported totals. -/
theorem sumAccuracies_retotal (g : ℚ → ℚ) (rs : List AnalysisResult) :
    sumAccuracies (rs.map
      (fun r => { r with totalEstimatedCost := g r.totalEstimatedCost })) =
      sumAccuracies rs := by
  suffices h : ∀ s : ℚ, (rs.map
      (fun r => { r with totalEstimatedCost := g r.totalEstimatedCost })).foldl
        (fun s r => s + r.accuracy) s = rs.foldl (fun s r => s + r.accuracy) s from h 0
  induction rs with
  | nil => intro s; rfl
  | cons r rs ih => intro s; rw [List.map_cons, List.foldl_cons, List.foldl_cons, ih]

/-- Aggregation ignores the self-reported totals. -/
theorem aggregate_retotal (g : ℚ → ℚ) (rs : List AnalysisResult)
    (fb : List EstItem) (rAcc : ℚ) :
    aggregate true (rs.map
      (fun r => { r with totalEstimatedCost := g r.totalEstimatedCost })) fb rAcc =
      aggregate true rs fb rAcc := by
  simp only [aggregate, flattenResults_retotal, sumAccuracies_retotal,
    List.length_map, ne_eq, List.map_eq_nil_iff]

/-- The whole pipeline's output is unchanged when every analysis result's
self-reported `totalEstimatedCost` is replaced arbitrarily. -/
theorem processProjectFiles_retotal (g : ℚ → ℚ) (files : List FileOutcome)
    (rnd : RandomSource) (prev : List EstItem) :
    processProjectFiles true (files.map (retotal g)) rnd prev =
      processProjectFiles true files rnd prev := by
  by_cases hf : files = []
  · subst hf; rfl
  · have hs : ((files.map (retotal g)).map (processFile true)).map Prod.fst =
        (files.map (processFile true)).map Prod.fst := by
      simp only [List.map_map]
      refine List.map_congr_left (fun f _ => ?_)
      simp [Function.comp, processFile_retotal]
    simp only [processProjectFiles, ne_eq, List.map_eq_nil_iff, if_neg hf, hs,
      collectResults_retotal, aggregate_retotal]

/-- With real results whose flattened item list is non-empty, aggregation
returns the flattened items, their recomputed total and the averaged
accuracy. -/
theorem aggregate_real_nonempty (rs : List AnalysisResult) (fb : List EstItem)
    (rAcc : ℚ) (hrs : rs ≠ []) (hflat : flattenResults rs ≠ []) :
    aggregate true rs fb rAcc =
      (flattenResults rs, sumAmounts (flattenResults rs),
        sumAccuracies rs / (rs.length : ℚ)) := by
  unfold aggregate
  rw [if_pos (show (true = true) ∧ rs ≠ [] from ⟨rfl, hrs⟩)]
  simp only [if_neg hflat]

/-- CLAIM C1: whenever the collected analysis results flatten to a non-empty
item list, `processProjectFiles` returns (and persists as the project's
`total_cost`) exactly the sum of the returned line items' amounts, and the
output is independent of the providers' self-reported `totalEstimatedCost`
values (replacing them by anything leaves the whole pipeline result
unchanged). -/
theorem processProjectFiles_totalCost (files : List FileOutcome)
    (rnd : RandomSource) (prev : List EstItem)
    (hflat : flattenResults (collectResults true files) ≠ []) :
    ∃ pr, (processProjectFiles true files rnd prev).returned = some pr ∧
      pr.totalCost = (pr.items.map EstItem.amount).sum ∧
      (processProjectFiles true files rnd prev).persistedTotalCost =
        some pr.totalCost ∧
      ∀ g : ℚ → ℚ, processProjectFiles true (files.map (retotal g)) rnd prev =
        processProjectFiles true files rnd prev := by
  have hcol : collectResults true files ≠ [] := by
    intro h
    rw [h] at hflat
    exact hflat rfl
  have hfiles : files ≠ [] := by
    intro h
    subst h
    exact hcol rfl
  have hchar : processProjectFiles true files rnd prev =
      { projectStatus := .completed
        fileStatuses := (files.map (processFile true)).map Prod.fst
        itemsTable := prev ++ flattenResults (collectResults true files)
        persistedTotalCost :=
          some (sumAmounts (flattenResults (collectResults true files)))
        returned := some
          { totalCost := sumAmounts (flattenResults (collectResults true files))
            items := flattenResults (collectResults true files)
            accuracy := round1 (sumAccuracies (collectResults true files) /
              ((collectResults true files).length : ℚ)) } } := by
    simp only [processProjectFiles, if_neg hfiles,
      aggregate_real_nonempty _ _ _ hcol hflat]
  refine ⟨_, by rw [hchar], sumAmounts_eq_sum _, by rw [hchar],
    fun g => processProjectFiles_retotal g files rnd prev⟩

/-- Witness for C1: one successful file whose analysis identified one item. -/
theorem processProjectFiles_totalCost_witness :
    ∃ pr, (processProjectFiles true
        [FileOutcome.ok ⟨[⟨"Structural", "Slab", 2, "m³", 500⟩], 9999, 90⟩]
        ⟨FALLBACK_CATALOG, 0, fun _ => 0, fun _ => 0, 0⟩ []).returned = some pr ∧
      pr.totalCost = (pr.items.map EstItem.amount).sum ∧
      (processProjectFiles true
        [FileOutcome.ok ⟨[⟨"Structural", "Slab", 2, "m³", 500⟩], 9999, 90⟩]
        ⟨FALLBACK_CATALOG, 0, fun _ => 0, fun _ => 0, 0⟩ []).persistedTotalCost =
        some pr.totalCost ∧
      ∀ g : ℚ → ℚ, processProjectFiles true
          ([FileOutcome.ok ⟨[⟨"Structural", "Slab", 2, "m³", 500⟩], 9999, 90⟩].map (retotal g))
          ⟨FALLBACK_CATALOG, 0, fun _ => 0, fun _ => 0, 0⟩ [] =
        processProjectFiles true
          [FileOutcome.ok ⟨[⟨"Structural", "Slab", 2, "m³", 500⟩], 9999, 90⟩]
          ⟨FALLBACK_CATALOG, 0, fun _ => 0, fun _ => 0, 0⟩ [] :=
  processProjectFiles_totalCost
    [FileOutcome.ok ⟨[⟨"Structural", "Slab", 2, "m³", 500⟩], 9999, 90⟩]
    ⟨FALLBACK_CATALOG, 0, fun _ => 0, fun _ => 0, 0⟩ []
    (by simp [collectResults, flattenResults, processFile])

/-- COUNTEREXAMPLE to CLAIM C8: a file whose validation or analysis fails
does NOT end as `error`.  `documentProcessor.processFile` and `analyzeWithAI`
catch internally and report failure through their `error` field, so the loop
falls through to the update that marks the file `completed`; only a thrown
exception reaches the `catch` that writes `error`.  Here file 1 fails
validation (`docError`) and file 2 succeeds, yet both end `completed`. -/
theorem failureIsolation_counterexample :
    (processProjectFiles true
      [FileOutcome.docError,
       FileOutcome.ok ⟨[⟨"Structural", "Slab", 2, "m³", 500⟩], 9999, 90⟩]
      ⟨FALLBACK_CATALOG, 0, fun _ => 0, fun _ => 0, 0⟩ []).fileStatuses =
      [FileStatus.completed, FileStatus.completed] ∧
    (processProjectFiles true
      [FileOutcome.docError,
       FileOutcome.ok ⟨[⟨"Structural", "Slab", 2, "m³", 500⟩], 9999, 90⟩]
      ⟨FALLBACK_CATALOG, 0, fun _ => 0, fun _ => 0, 0⟩ []).projectStatus =
      ProjStatus.completed ∧
    FileStatus.completed ≠ FileStatus.error := by
  refine ⟨rfl, rfl, by decide⟩

/-- CLAIM C8 (amended): with N ≥ 2 files of which exactly one THROWS during
processing and the other N−1 succeed with analysis results (flattening to a
non-empty item list), the project still reaches `completed` using the N−1
successful results: the throwing file is marked `error`, the others
`completed`, and the returned items are exactly the flattened successful
results with the total recomputed from them.  (A file failing validation or
analysis via a returned error field contributes nothing but is marked
`completed`, not `error` — see the counterexample.) -/
theorem failureIsolation_amended (l₁ l₂ : List FileOutcome)
    (rnd : RandomSource) (prev : List EstItem)
    (hok : ∀ f ∈ l₁ ++ l₂, ∃ r, f = FileOutcome.ok r)
    (hflat : flattenResults
      (collectResults true (l₁ ++ FileOutcome.throws :: l₂)) ≠ []) :
    (processProjectFiles true (l₁ ++ FileOutcome.throws :: l₂) rnd prev).projectStatus =
      ProjStatus.completed ∧
    (processProjectFiles true (l₁ ++ FileOutcome.throws :: l₂) rnd prev).fileStatuses =
      l₁.map (fun _ => FileStatus.completed) ++
        FileStatus.error :: l₂.map (fun _ => FileStatus.completed) ∧
    ∃ pr, (processProjectFiles true (l₁ ++ FileOutcome.throws :: l₂) rnd prev).returned =
        some pr ∧
      pr.items = flattenResults (collectResults true (l₁ ++ FileOutcome.throws :: l₂)) ∧
      pr.totalCost = (pr.items.map EstItem.amount).sum := by
  have hfiles : l₁ ++ FileOutcome.throws :: l₂ ≠ [] := by simp
  have hcol : collectResults true (l₁ ++ FileOutcome.throws :: l₂) ≠ [] := by
    intro h
    rw [h] at hflat
    exact hflat rfl
  have h1 : l₁.map (Prod.fst ∘ processFile true) =
      l₁.map (fun _ => FileStatus.completed) :=
    List.map_congr_left (fun f hf => by
      obtain ⟨r, rfl⟩ := hok f (List.mem_append_left _ hf)
      rfl)
  have h2 : l₂.map (Prod.fst ∘ processFile true) =
      l₂.map (fun _ => FileStatus.completed) :=
    List.map_congr_left (fun f hf => by
      obtain ⟨r, rfl⟩ := hok f (List.mem_append_right _ hf)
      rfl)
  have hchar : processProjectFiles true (l₁ ++ FileOutcome.throws :: l₂) rnd prev =
      { projectStatus := .completed
        fileStatuses := ((l₁ ++ FileOutcome.throws :: l₂).map (processFile true)).map Prod.fst
        itemsTable := prev ++
          flattenResults (collectResults true (l₁ ++ FileOutcome.throws :: l₂))
        persistedTotalCost := some (sumAmounts
          (flattenResults (collectResults true (l₁ ++ FileOutcome.throws :: l₂))))
        returned := some
          { totalCost := sumAmounts
              (flattenResults (collectResults true (l₁ ++ FileOutcome.throws :: l₂)))
            items := flattenResults (collectResults true (l₁ ++ FileOutcome.throws :: l₂))
            accuracy := round1
              (sumAccuracies (collectResults true (l₁ ++ FileOutcome.throws :: l₂)) /
                ((collectResults true (l₁ ++ FileOutcome.throws :: l₂)).length : ℚ)) } } := by
    simp only [processProjectFiles, if_neg hfiles,
      aggregate_real_nonempty _ _ _ hcol hflat]
  rw [hchar]
  refine ⟨rfl, ?_, _, rfl, rfl, sumAmounts_eq_sum _⟩
  show ((l₁ ++ FileOutcome.throws :: l₂).map (processFile true)).map Prod.fst = _
  rw [List.map_map, List.map_append, List.map_cons, h1, h2]
  rfl

/-- Witness for the amended C8: two files, the second throws. -/
theorem failureIsolation_amended_witness :
    (processProjectFiles true
      ([FileOutcome.ok ⟨[⟨"Structural", "Slab", 2, "m³", 500⟩], 9999, 90⟩] ++
        FileOutcome.throws :: ([] : List FileOutcome))
      ⟨FALLBACK_CATALOG, 0, fun _ => 0, fun _ => 0, 0⟩ []).projectStatus =
      ProjStatus.completed ∧
    (processProjectFiles true
      ([FileOutcome.ok ⟨[⟨"Structural", "Slab", 2, "m³", 500⟩], 9999, 90⟩] ++
        FileOutcome.throws :: ([] : List FileOutcome))
      ⟨FALLBACK_CATALOG, 0, fun _ => 0, fun _ => 0, 0⟩ []).fileStatuses =
      [FileOutcome.ok ⟨[⟨"Structural", "Slab", 2, "m³", 500⟩], 9999, 90⟩].map
        (fun _ => FileStatus.completed) ++
        FileStatus.error :: ([] : List FileOutcome).map (fun _ => FileStatus.completed) ∧
    ∃ pr, (processProjectFiles true
        ([FileOutcome.ok ⟨[⟨"Structural", "Slab", 2, "m³", 500⟩], 9999, 90⟩] ++
          FileOutcome.throws :: ([] : List FileOutcome))
        ⟨FALLBACK_CATALOG, 0, fun _ => 0, fun _ => 0, 0⟩ []).returned = some pr ∧
      pr.items = flattenResults (collectResults true
        ([FileOutcome.ok ⟨[⟨"Structural", "Slab", 2, "m³", 500⟩], 9999, 90⟩] ++
          FileOutcome.throws :: ([] : List FileOutcome))) ∧
      pr.totalCost = (pr.items.map EstItem.amount).sum :=
  failureIsolation_amended
    [FileOutcome.ok ⟨[⟨"Structural", "Slab", 2, "m³", 500⟩], 9999, 90⟩] []
    ⟨FALLBACK_CATALOG, 0, fun _ => 0, fun _ => 0, 0⟩ []
    (by
      intro f hf
      simp at hf
      exact ⟨_, hf⟩)
    (by simp [collectResults, flattenResults, processFile])

/-- CLAIM C9 evaluated at a failing input: re-running the pipeline INSERTS
the new run's rows without deleting the previous run's (`.insert` with no
prior delete), so after a second successful run the persisted
`estimation_items` rows are the first run's items followed by the second
run's — not exactly the second run's items, contradicting the replace-not-
append requirement. -/
theorem rerun_appends_items :
    ∃ pr, (processProjectFiles false [FileOutcome.docError]
        ⟨FALLBACK_CATALOG, 0, fun _ => 0, fun _ => 0, 0⟩
        (processProjectFiles false [FileOutcome.docError]
          ⟨FALLBACK_CATALOG, 0, fun _ => 0, fun _ => 0, 0⟩ []).itemsTable).returned =
        some pr ∧
      (processProjectFiles false [FileOutcome.docError]
        ⟨FALLBACK_CATALOG, 0, fun _ => 0, fun _ => 0, 0⟩
        (processProjectFiles false [FileOutcome.docError]
          ⟨FALLBACK_CATALOG, 0, fun _ => 0, fun _ => 0, 0⟩ []).itemsTable).itemsTable =
        (processProjectFiles false [FileOutcome.docError]
          ⟨FALLBACK_CATALOG, 0, fun _ => 0, fun _ => 0, 0⟩ []).itemsTable ++ pr.items ∧
      (processProjectFiles false [FileOutcome.docError]
        ⟨FALLBACK_CATALOG, 0, fun _ => 0, fun _ => 0, 0⟩ []).itemsTable ≠ [] ∧
      (processProjectFiles false [FileOutcome.docError]
        ⟨FALLBACK_CATALOG, 0, fun _ => 0, fun _ => 0, 0⟩
        (processProjectFiles false [FileOutcome.docError]
          ⟨FALLBACK_CATALOG, 0, fun _ => 0, fun _ => 0, 0⟩ []).itemsTable).itemsTable ≠
        pr.items := by
  have hlen : (generateFallbackEstimation FALLBACK_CATALOG 0
      (fun _ => 0) (fun _ => 0)).length = 8 := by
    have h0 : (⌊(0 : ℚ) * 5⌋).toNat = 0 := by norm_num
    rw [generateFallbackEstimation, h0, buildFallbackItems_length,
      List.length_take]
    rfl
  refine ⟨_, rfl, rfl, ?_, ?_⟩
  · intro h
    rw [show (processProjectFiles false [FileOutcome.docError]
        ⟨FALLBACK_CATALOG, 0, fun _ => 0, fun _ => 0, 0⟩ []).itemsTable =
        generateFallbackEstimation FALLBACK_CATALOG 0 (fun _ => 0) (fun _ => 0)
        from rfl] at h
    rw [h] at hlen
    simp at hlen
  · intro h
    have hl := congrArg List.length h
    rw [show (processProjectFiles false [FileOutcome.docError]
        ⟨FALLBACK_CATALOG, 0, fun _ => 0, fun _ => 0, 0⟩
        (processProjectFiles false [FileOutcome.docError]
          ⟨FALLBACK_CATALOG, 0, fun _ => 0, fun _ => 0, 0⟩ []).itemsTable).itemsTable =
        generateFallbackEstimation FALLBACK_CATALOG 0 (fun _ => 0) (fun _ => 0) ++
        generateFallbackEstimation FALLBACK_CATALOG 0 (fun _ => 0) (fun _ => 0)
        from rfl] at hl
    rw [List.length_append, hlen] at hl
    have hagg : (aggregate false (collectResults false [FileOutcome.docError])
        (generateFallbackEstimation FALLBACK_CATALOG 0 (fun _ => 0) (fun _ => 0))
        0).1 = generateFallbackEstimation FALLBACK_CATALOG 0 (fun _ => 0) (fun _ => 0) := rfl
    rw [hagg, hlen] at hl
    omega

end EstimateAI
